import Mathlib

/-!
Verification development for the billiard triangle game
(src/billiard_triangle.py). The Python source is shallowly embedded:
floating-point numbers are modelled as real numbers, `math.sqrt` as
`Real.sqrt`, and the mutating methods of `Ball` and
`BilliardTriangleGame` as pure state-passing functions.
-/

open Real

/-! ## Constants (lines 20-43 of the source) -/

def SCREEN_WIDTH : ℝ := 800
def SCREEN_HEIGHT : ℝ := 690
def BOARD_HEIGHT : ℝ := 600
def BALL_RADIUS : ℝ := 15
def TARGET_BALL_COLOR : ℕ × ℕ × ℕ := (255, 0, 0)
def PLAYER_BALL_COLOR : ℕ × ℕ × ℕ := (255, 255, 255)
def FRICTION : ℝ := 0.99
def MIN_VELOCITY : ℝ := 0.1
def INITIAL_SPEED : ℝ := 22.0
def RESTITUTION : ℝ := 0.6
def WALL_RESTITUTION : ℝ := 0.8

/-! ## The Ball class (source lines 46-171) -/

/-- State of a `Ball` object: position, velocity, color, role tag and the
moving flag, as set up in `Ball.__init__` (source lines 51-67). -/
structure Ball where
  x : ℝ
  y : ℝ
  vx : ℝ
  vy : ℝ
  color : ℕ × ℕ × ℕ
  isTarget : Bool
  moving : Bool

/-- The constructor `Ball.__init__` (source lines 51-67): velocity starts at
zero and the ball starts at rest. -/
def Ball.init (x y : ℝ) (color : ℕ × ℕ × ℕ) (isTarget : Bool) : Ball :=
  { x := x, y := y, vx := 0, vy := 0, color := color,
    isTarget := isTarget, moving := false }

/-- Speed magnitude `math.sqrt(vx**2 + vy**2)` used by the stop check in
`Ball.update` (source line 96). -/
noncomputable def Ball.speed (b : Ball) : ℝ :=
  Real.sqrt (b.vx ^ 2 + b.vy ^ 2)

/-- Wall handling of `Ball.update` for one axis (source lines 77-89): given
the wall coordinate `hi` of the far wall (`SCREEN_WIDTH` for x,
`BOARD_HEIGHT` for y), the already-advanced position `pos` and the
velocity component `v`, clamp the position to the wall adjusted by
`BALL_RADIUS` and negate-and-scale the velocity by `WALL_RESTITUTION`
when a wall is crossed. Returns (new position, new velocity). -/
noncomputable def axisBounce (hi pos v : ℝ) : ℝ × ℝ :=
  if pos - BALL_RADIUS < 0 then (BALL_RADIUS, -v * WALL_RESTITUTION)
  else if pos + BALL_RADIUS > hi then (hi - BALL_RADIUS, -v * WALL_RESTITUTION)
  else (pos, v)

/-- The method `Ball.update` (source lines 69-99): when moving, advance the
position by the velocity, bounce off the four walls with
`WALL_RESTITUTION`, apply `FRICTION` to the velocity, and stop (zero the
velocity and clear the moving flag) when the post-friction speed falls
below `MIN_VELOCITY`. -/
noncomputable def Ball.update (b : Ball) : Ball :=
  if b.moving = true then
    let xv := axisBounce SCREEN_WIDTH (b.x + b.vx) b.vx
    let yv := axisBounce BOARD_HEIGHT (b.y + b.vy) b.vy
    let vx1 := xv.2 * FRICTION
    let vy1 := yv.2 * FRICTION
    if Real.sqrt (vx1 ^ 2 + vy1 ^ 2) < MIN_VELOCITY then
      { b with x := xv.1, y := yv.1, vx := 0, vy := 0, moving := false }
    else
      { b with x := xv.1, y := yv.1, vx := vx1, vy := vy1 }
  else b

/-- The method `Ball.move_towards` (source lines 101-117): set the velocity
to the unit vector toward the target point scaled by `speed` and mark the
ball moving, but only when the distance to the target point is positive. -/
noncomputable def Ball.moveTowards (b : Ball) (tx ty speed : ℝ) : Ball :=
  let dx := tx - b.x
  let dy := ty - b.y
  let distance := Real.sqrt (dx ^ 2 + dy ^ 2)
  if distance > 0 then
    { b with vx := dx / distance * speed, vy := dy / distance * speed,
             moving := true }
  else b

/-- The method `Ball.collide_with` (source lines 119-171), with the
restitution coefficient abstracted as a parameter `e` so that the
elastic-limit case can be stated. Returns the updated pair of balls
(`self`, `other_ball`) and the boolean result of the method. A collision
is detected when the center distance is below `BALL_RADIUS * 2`; then,
when the distance is positive, the positions are pushed apart by half the
overlap each and the impulse `(1 + e) * dot` is applied along the normal,
marking both balls moving. -/
noncomputable def Ball.collideWithR (e : ℝ) (b other : Ball) : Ball × Ball × Bool :=
  let dx := other.x - b.x
  let dy := other.y - b.y
  let distance := Real.sqrt (dx ^ 2 + dy ^ 2)
  if distance < BALL_RADIUS * 2 then
    let overlap := BALL_RADIUS * 2 - distance
    let p : Ball × Ball :=
      if distance > 0 then
        ({ b with x := b.x - dx / distance * (overlap / 2),
                  y := b.y - dy / distance * (overlap / 2) },
         { other with x := other.x + dx / distance * (overlap / 2),
                      y := other.y + dy / distance * (overlap / 2) })
      else (b, other)
    let q : Ball × Ball :=
      if distance > 0 then
        let nx := dx / distance
        let ny := dy / distance
        let dvx := p.2.vx - p.1.vx
        let dvy := p.2.vy - p.1.vy
        let dotp := dvx * nx + dvy * ny
        let impulse := (1 + e) * dotp
        ({ p.1 with vx := p.1.vx + impulse * nx, vy := p.1.vy + impulse * ny,
                    moving := true },
         { p.2 with vx := p.2.vx - impulse * nx, vy := p.2.vy - impulse * ny,
                    moving := true })
      else p
    (q.1, q.2, true)
  else (b, other, false)

/-- The method `Ball.collide_with` as the source runs it, with the fixed
constant `RESTITUTION` (source line 157). -/
noncomputable def Ball.collideWith (b other : Ball) : Ball × Ball × Bool :=
  Ball.collideWithR RESTITUTION b other

/-! ## The BilliardTriangleGame class (source lines 183-424) -/

/-- Mutable state of a `BilliardTriangleGame` object: the fields assigned in
`__init__` (source line 201) and `reset_game` (source lines 206-225).
Rendering-only resources (screen, clock, font, cursor surface) are not part
of the model. -/
structure GameState where
  targetBall : Ball
  playerBalls : List Ball
  ballsLeft : ℕ
  placingBall : Bool
  allBallsStopped : Bool
  gameOver : Bool
  currentScore : ℝ
  triangle : Option (List (ℝ × ℝ))
  tempBall : Option Ball
  bestScore : ℝ

/-- The method `reset_game` (source lines 206-225), parametrized by the two
values `target_x`, `target_y` drawn by `random.randint`; `best_score` is
the only field of the object it does not reassign. -/
def resetGame (g : GameState) (tx ty : ℤ) : GameState :=
  { targetBall := Ball.init (tx : ℝ) (ty : ℝ) TARGET_BALL_COLOR true,
    playerBalls := [],
    ballsLeft := 2,
    placingBall := false,
    allBallsStopped := true,
    gameOver := false,
    currentScore := 0,
    triangle := none,
    tempBall := none,
    bestScore := g.bestScore }

/-- The range of the two `random.randint` calls in `reset_game` (source
lines 209-210): `random.randint(a, b)` returns an integer in `[a, b]`
inclusive, here with `a = BALL_RADIUS * 2` and
`b = SCREEN_WIDTH - BALL_RADIUS * 2` (resp. `BOARD_HEIGHT`). -/
def validDraw (tx ty : ℤ) : Prop :=
  BALL_RADIUS * 2 ≤ (tx : ℝ) ∧ (tx : ℝ) ≤ SCREEN_WIDTH - BALL_RADIUS * 2 ∧
  BALL_RADIUS * 2 ≤ (ty : ℝ) ∧ (ty : ℝ) ≤ BOARD_HEIGHT - BALL_RADIUS * 2

/-- A point is a possible spawn position of the target ball when some
outcome of the random draw makes `reset_game` put the target there. -/
def possibleSpawn (x y : ℝ) : Prop :=
  ∃ (g : GameState) (tx ty : ℤ), validDraw tx ty ∧
    (resetGame g tx ty).targetBall.x = x ∧ (resetGame g tx ty).targetBall.y = y

/-- The method `all_stopped` (source lines 227-241): true iff the target
ball and every player ball individually report not-moving. -/
def allStopped (g : GameState) : Bool :=
  !g.targetBall.moving && g.playerBalls.all (fun b => !b.moving)

/-- Ordered list of the `collide_with` invocations the inner loop of
`update_balls` (source lines 253-255) issues for player ball `i` in a
round with `n` player balls: one invocation `(i, j)` for every other
player index `j`. The identity test `ball != other_ball` of the source is
index inequality since the list holds pairwise distinct objects. -/
def playerCollideCalls (n i : ℕ) : List (ℕ × ℕ) :=
  ((List.range n).filter (fun j => j != i)).map (fun j => (i, j))

/-- Ordered list of all `collide_with` invocations issued by one call of
`update_balls` (source lines 243-255), with player balls numbered
`0, ..., n-1` and the target ball numbered `n`: for each player `i` in
order, first the call `ball.collide_with(self.target_ball)` (source line
251), then the inner loop over the other player balls. -/
def collideCallTrace (n : ℕ) : List (ℕ × ℕ) :=
  (List.range n).flatMap (fun i => (i, n) :: playerCollideCalls n i)

/-- Number of times one call of `update_balls` applies the resolver to the
unordered pair of the distinct indices `p` and `q` (in either order). -/
def pairCallCount (n p q : ℕ) : ℕ :=
  (collideCallTrace n).count (p, q) + (collideCallTrace n).count (q, p)

/-- The method `update_balls` (source lines 243-255): update the target
ball, then for each player ball in order update it, collide it with the
target, and collide it with every other player ball following
`playerCollideCalls`. -/
noncomputable def updateBalls (g : GameState) : GameState :=
  let n := g.playerBalls.length
  let step : Ball × List Ball → ℕ → Ball × List Ball := fun st i =>
    match st.2.get? i with
    | none => st
    | some bi =>
      let bi1 := bi.update
      let r := bi1.collideWith st.1
      let inner : Ball × List Ball → ℕ × ℕ → Ball × List Ball := fun st2 pr =>
        match st2.2.get? pr.1, st2.2.get? pr.2 with
        | some a, some b =>
          let r2 := a.collideWith b
          (st2.1, (st2.2.set pr.1 r2.1).set pr.2 r2.2.1)
        | _, _ => st2
      (playerCollideCalls n i).foldl inner (r.2.1, st.2.set i r.1)
  let res := (List.range n).foldl step (g.targetBall.update, g.playerBalls)
  { g with targetBall := res.1, playerBalls := res.2 }

/-- The method `calculate_triangle_area` (source lines 257-283): returns 0
when fewer than two player balls exist; otherwise computes the three side
lengths between the target ball and the first two player balls, the
semi-perimeter `s`, and, when the triangle guard holds, the Heron area,
additionally storing the three vertices in `self.triangle`. The returned
pair is (return value, state of the object after the call). -/
noncomputable def calculateTriangleArea (g : GameState) : ℝ × GameState :=
  match g.playerBalls with
  | p0 :: p1 :: _ =>
    let v1 : ℝ × ℝ := (g.targetBall.x, g.targetBall.y)
    let v2 : ℝ × ℝ := (p0.x, p0.y)
    let v3 : ℝ × ℝ := (p1.x, p1.y)
    let a := Real.sqrt ((v2.1 - v1.1) ^ 2 + (v2.2 - v1.2) ^ 2)
    let b := Real.sqrt ((v3.1 - v2.1) ^ 2 + (v3.2 - v2.2) ^ 2)
    let c := Real.sqrt ((v1.1 - v3.1) ^ 2 + (v1.2 - v3.2) ^ 2)
    let s := (a + b + c) / 2
    if s > 0 ∧ s > a ∧ s > b ∧ s > c then
      (Real.sqrt (s * (s - a) * (s - b) * (s - c)),
       { g with triangle := some [v1, v2, v3] })
    else (0, g)
  | _ => (0, g)

/-- Overlap test of the placement handler (source lines 307-313): the
candidate point must not come within `BALL_RADIUS * 2` of the target ball
or of any existing player ball. -/
def canPlace (g : GameState) (mx my : ℝ) : Prop :=
  ¬ Real.sqrt ((mx - g.targetBall.x) ^ 2 + (my - g.targetBall.y) ^ 2) < BALL_RADIUS * 2 ∧
  ∀ b ∈ g.playerBalls,
    ¬ Real.sqrt ((mx - b.x) ^ 2 + (my - b.y) ^ 2) < BALL_RADIUS * 2

noncomputable instance (g : GameState) (mx my : ℝ) : Decidable (canPlace g mx my) := by
  unfold canPlace
  infer_instance

/-- The left-button `MOUSEBUTTONDOWN` handler of `run` (source lines
301-320): the placement is accepted only when all balls are stopped, balls
remain, the game is not over, the click is within the board's vertical
extent, and the overlap test passes; an accepted placement appends a fresh
resting ball, sets `placing_ball`, and decrements `balls_left`. Returns
the new state and whether a ball was placed. -/
noncomputable def place (g : GameState) (mx my : ℝ) : GameState × Bool :=
  if allStopped g = true ∧ 0 < g.ballsLeft ∧ g.gameOver = false then
    if my ≤ BOARD_HEIGHT then
      if canPlace g mx my then
        let g1 := { g with
          playerBalls := g.playerBalls ++ [Ball.init mx my PLAYER_BALL_COLOR false],
          placingBall := true,
          ballsLeft := g.ballsLeft - 1 }
        (g1, true)
      else (g, false)
    else (g, false)
  else (g, false)

/-- The left-button `MOUSEBUTTONUP` handler of `run` (source lines
322-331): when a ball is being placed, clear `placing_ball`, recolor the
most recently placed ball, launch it toward the target ball, and clear
`all_balls_stopped`. -/
noncomputable def commitLaunch (g : GameState) : GameState :=
  if g.placingBall = true then
    let g1 := { g with placingBall := false }
    match g1.playerBalls.getLast? with
    | none => g1
    | some last =>
      let last1 := { last with color := PLAYER_BALL_COLOR }
      let last2 := last1.moveTowards g1.targetBall.x g1.targetBall.y INITIAL_SPEED
      { g1 with playerBalls := g1.playerBalls.dropLast ++ [last2],
                allBallsStopped := false }
  else g

/-- The per-frame physics step of the main loop (source lines 352-364):
when not all balls are stopped, run `update_balls`, recompute the
stopped flag, and on the transition to all-stopped with no balls left
compute the score, update the best score when beaten, and end the game. -/
noncomputable def tick (g : GameState) : GameState :=
  if g.allBallsStopped = true then g
  else
    let g1 := updateBalls g
    let stopped := allStopped g1
    let g2 := { g1 with allBallsStopped := stopped }
    if stopped = true then
      if g2.ballsLeft = 0 then
        let r := calculateTriangleArea g2
        let g3 : GameState := { r.2 with currentScore := r.1 }
        let g4 : GameState :=
          if g3.bestScore < g3.currentScore then
            { g3 with bestScore := g3.currentScore }
          else g3
        { g4 with gameOver := true }
      else g2
    else g2

/-- Commands the main loop can apply to the game state: a physics frame, a
placement click, a launch release, and a reset keypress. -/
inductive GameOp where
  | tick : GameOp
  | place (mx my : ℝ) : GameOp
  | launch : GameOp
  | reset (tx ty : ℤ) : GameOp

/-- Interpreter for one command against the game state. -/
noncomputable def applyOp (g : GameState) : GameOp → GameState
  | GameOp.tick => tick g
  | GameOp.place mx my => (place g mx my).1
  | GameOp.launch => commitLaunch g
  | GameOp.reset tx ty => resetGame g tx ty

/-! ## Helper lemmas about Ball.update -/

/-- Evaluation helper for square roots of perfect squares. -/
lemma sqrt_eval {x c : ℝ} (hx : x = c ^ 2) (hc : 0 ≤ c) : Real.sqrt x = c := by
  rw [hx, Real.sqrt_sq hc]

/-- Reachable-state invariant of a ball: a ball reported at rest has zero
velocity. -/
def BallInv (b : Ball) : Prop := b.moving = false → b.vx = 0 ∧ b.vy = 0

lemma update_of_not_moving {b : Ball} (h : b.moving = false) : b.update = b := by
  unfold Ball.update
  rw [h]
  simp

/-- Case analysis of one `Ball.update` call: either the stop check fired
(zero velocity, at rest), or the ball is still moving with speed at least
`MIN_VELOCITY`, or it was at rest already and nothing changed. -/
lemma update_cases (b : Ball) :
    (b.update.moving = false ∧ b.update.vx = 0 ∧ b.update.vy = 0) ∨
    (b.update.moving = true ∧
      MIN_VELOCITY ≤ Real.sqrt (b.update.vx ^ 2 + b.update.vy ^ 2)) ∨
    (b.moving = false ∧ b.update = b) := by
  by_cases hm : b.moving = true
  · unfold Ball.update
    rw [if_pos hm]
    dsimp only
    split
    · left
      exact ⟨rfl, rfl, rfl⟩
    · right; left
      refine ⟨hm, ?_⟩
      next h => exact le_of_not_lt h
  · right; right
    have hm' : b.moving = false := by
      cases hb : b.moving
      · rfl
      · exact absurd hb hm
    exact ⟨hm', update_of_not_moving hm'⟩

/-- Wall bouncing never increases the square of a velocity component. -/
lemma axisBounce_sq_le (hi pos v : ℝ) : (axisBounce hi pos v).2 ^ 2 ≤ v ^ 2 := by
  unfold axisBounce
  split_ifs
  · unfold WALL_RESTITUTION
    nlinarith [sq_nonneg v]
  · unfold WALL_RESTITUTION
    nlinarith [sq_nonneg v]
  · exact le_refl _

lemma sqrt_decay_aux {w u vx vy : ℝ} (hw : w ^ 2 ≤ vx ^ 2) (hu : u ^ 2 ≤ vy ^ 2) :
    Real.sqrt ((w * FRICTION) ^ 2 + (u * FRICTION) ^ 2) ≤
      FRICTION * Real.sqrt (vx ^ 2 + vy ^ 2) := by
  have h : (w * FRICTION) ^ 2 + (u * FRICTION) ^ 2 ≤ FRICTION ^ 2 * (vx ^ 2 + vy ^ 2) := by
    unfold FRICTION
    nlinarith
  calc Real.sqrt ((w * FRICTION) ^ 2 + (u * FRICTION) ^ 2)
      ≤ Real.sqrt (FRICTION ^ 2 * (vx ^ 2 + vy ^ 2)) := Real.sqrt_le_sqrt h
    _ = FRICTION * Real.sqrt (vx ^ 2 + vy ^ 2) := by
        rw [Real.sqrt_mul (by positivity), Real.sqrt_sq (by unfold FRICTION; norm_num)]

/-- One `Ball.update` call multiplies the speed of a moving ball by at most
`FRICTION`. -/
lemma update_speed_decay {b : Ball} (hm : b.moving = true) :
    Real.sqrt (b.update.vx ^ 2 + b.update.vy ^ 2) ≤
      FRICTION * Real.sqrt (b.vx ^ 2 + b.vy ^ 2) := by
  unfold Ball.update
  rw [if_pos hm]
  dsimp only
  split
  · have h0 : Real.sqrt ((0:ℝ) ^ 2 + (0:ℝ) ^ 2) = 0 := by
      norm_num [Real.sqrt_zero]
    rw [h0]
    unfold FRICTION
    positivity
  · exact sqrt_decay_aux (axisBounce_sq_le _ _ _) (axisBounce_sq_le _ _ _)

/-- A ball that is still moving after an `update` call has speed at least
`MIN_VELOCITY`. -/
lemma update_moving_speed {b : Ball} (h : b.update.moving = true) :
    MIN_VELOCITY ≤ Real.sqrt (b.update.vx ^ 2 + b.update.vy ^ 2) := by
  rcases update_cases b with h1 | h2 | h3
  · rw [h1.1] at h
    exact absurd h (by simp)
  · exact h2.2
  · rw [h3.2] at h
    rw [h3.1] at h
    exact absurd h (by simp)

/-- The rest invariant is preserved by `Ball.update`. -/
lemma update_preserves_inv {b : Ball} (hb : BallInv b) : BallInv b.update := by
  rcases update_cases b with h1 | h2 | h3
  · intro _
    exact ⟨h1.2.1, h1.2.2⟩
  · intro hf
    rw [h2.1] at hf
    exact absurd hf (by simp)
  · rw [h3.2]
    exact hb

/-- The rest invariant is preserved by `Ball.move_towards`. -/
lemma moveTowards_preserves_inv {b : Ball} (hb : BallInv b) (tx ty sp : ℝ) :
    BallInv (b.moveTowards tx ty sp) := by
  unfold Ball.moveTowards
  dsimp only
  split
  · intro h
    exact absurd h (by simp)
  · exact hb

/-- The rest invariant is preserved for both balls by `Ball.collide_with`
for any restitution coefficient. -/
lemma collideWithR_preserves_inv {e : ℝ} {a b : Ball} (ha : BallInv a) (hb : BallInv b) :
    BallInv (Ball.collideWithR e a b).1 ∧ BallInv (Ball.collideWithR e a b).2.1 := by
  unfold Ball.collideWithR
  dsimp only
  split_ifs with h1 h2
  · constructor <;> (intro h; exact absurd h (by simp))
  · exact ⟨ha, hb⟩
  · exact ⟨ha, hb⟩

/-! ## Claim C10 -/

/-- C10: every Ball maintains the invariant moving = false implies velocity
= (0, 0): it holds at construction, `update` zeroes the velocity in the
same step in which it clears the flag, and `move_towards` and
`collide_with` assign velocity only in branches that also set
moving = true; hence the invariant is preserved by every Ball operation. -/
theorem C10_rest_invariant :
    (∀ (x y : ℝ) (c : ℕ × ℕ × ℕ) (t : Bool),
      (Ball.init x y c t).moving = false ∧ (Ball.init x y c t).vx = 0 ∧
      (Ball.init x y c t).vy = 0 ∧ BallInv (Ball.init x y c t)) ∧
    (∀ b : Ball, BallInv b → BallInv b.update) ∧
    (∀ (b : Ball) (tx ty sp : ℝ), BallInv b → BallInv (b.moveTowards tx ty sp)) ∧
    (∀ a b : Ball, BallInv a → BallInv b →
      BallInv (a.collideWith b).1 ∧ BallInv (a.collideWith b).2.1) :=
  ⟨fun _ _ _ _ => ⟨rfl, rfl, rfl, fun _ => ⟨rfl, rfl⟩⟩,
   fun _ hb => update_preserves_inv hb,
   fun _ tx ty sp hb => moveTowards_preserves_inv hb tx ty sp,
   fun _ _ ha hb => collideWithR_preserves_inv ha hb⟩

/-- Witness for C10 at concrete balls. -/
theorem C10_rest_invariant_witness :
    BallInv ((Ball.init 1 2 PLAYER_BALL_COLOR false).update) ∧
    BallInv ((Ball.init 1 2 PLAYER_BALL_COLOR false).moveTowards 3 4 INITIAL_SPEED) ∧
    BallInv ((Ball.init 1 2 PLAYER_BALL_COLOR false).collideWith
      (Ball.init 50 50 TARGET_BALL_COLOR true)).1 := by
  have h0 := (C10_rest_invariant.1 1 2 PLAYER_BALL_COLOR false).2.2.2
  have h1 := (C10_rest_invariant.1 50 50 TARGET_BALL_COLOR true).2.2.2
  exact ⟨C10_rest_invariant.2.1 _ h0,
    C10_rest_invariant.2.2.1 _ 3 4 INITIAL_SPEED h0,
    (C10_rest_invariant.2.2.2 _ _ h0 h1).1⟩

/-! ## Claim C5 -/

/-- C5: after one `update()` call, no ball ends with moving = true and
speed strictly below `MIN_VELOCITY`; and for every ball satisfying the
reachable-state invariant `BallInv` (at rest implies zero velocity, see
C10), the post-update speed is either exactly 0 with the moving flag
cleared, or at least `MIN_VELOCITY`. -/
theorem C5_post_update_speed :
    (∀ b : Ball, ¬(b.update.moving = true ∧
        Real.sqrt (b.update.vx ^ 2 + b.update.vy ^ 2) < MIN_VELOCITY)) ∧
    (∀ b : Ball, BallInv b →
      (b.update.moving = false ∧ Real.sqrt (b.update.vx ^ 2 + b.update.vy ^ 2) = 0) ∨
      (b.update.moving = true ∧
        MIN_VELOCITY ≤ Real.sqrt (b.update.vx ^ 2 + b.update.vy ^ 2))) := by
  constructor
  · intro b hcon
    exact absurd hcon.2 (not_lt.mpr (update_moving_speed hcon.1))
  · intro b hb
    rcases update_cases b with h1 | h2 | h3
    · left
      refine ⟨h1.1, ?_⟩
      rw [h1.2.1, h1.2.2]
      norm_num
    · right
      exact h2
    · left
      rw [h3.2]
      refine ⟨h3.1, ?_⟩
      rw [(hb h3.1).1, (hb h3.1).2]
      norm_num

/-- Test ball for the C5 witness: moving at speed 5 far from all walls. -/
def ballC5 : Ball :=
  { x := 100, y := 100, vx := 5, vy := 0, color := PLAYER_BALL_COLOR,
    isTarget := false, moving := true }

/-- Witness for C5 at a concrete moving ball. -/
theorem C5_post_update_speed_witness :
    (¬(ballC5.update.moving = true ∧
        Real.sqrt (ballC5.update.vx ^ 2 + ballC5.update.vy ^ 2) < MIN_VELOCITY)) ∧
    ((ballC5.update.moving = false ∧
        Real.sqrt (ballC5.update.vx ^ 2 + ballC5.update.vy ^ 2) = 0) ∨
      (ballC5.update.moving = true ∧
        MIN_VELOCITY ≤ Real.sqrt (ballC5.update.vx ^ 2 + ballC5.update.vy ^ 2))) :=
  ⟨C5_post_update_speed.1 ballC5,
   C5_post_update_speed.2 ballC5 (fun h => absurd h (by simp [ballC5]))⟩

/-! ## Claim C7 -/

/-- C7: under repeated `update()` calls a ball always reaches rest in
finitely many ticks: the per-tick friction factor < 1 decays the speed
geometrically, so the stop check eventually fires, zeroing the velocity
and clearing the moving flag. The hypothesis is the reachable-state
invariant of C10 (a ball already at rest has zero velocity). -/
theorem C7_settling_terminates (b : Ball) (hb : BallInv b) :
    ∃ n : ℕ, (Ball.update^[n] b).moving = false ∧
      (Ball.update^[n] b).vx = 0 ∧ (Ball.update^[n] b).vy = 0 ∧
      Real.sqrt ((Ball.update^[n] b).vx ^ 2 + (Ball.update^[n] b).vy ^ 2)
        < MIN_VELOCITY := by
  have hinv : ∀ k, BallInv (Ball.update^[k] b) := by
    intro k
    induction k with
    | zero => exact hb
    | succ k ih =>
      rw [Function.iterate_succ_apply']
      exact update_preserves_inv ih
  have hbound : ∀ k, (Ball.update^[k] b).moving = true →
      Real.sqrt ((Ball.update^[k] b).vx ^ 2 + (Ball.update^[k] b).vy ^ 2) ≤
        FRICTION ^ k * Real.sqrt (b.vx ^ 2 + b.vy ^ 2) := by
    intro k
    induction k with
    | zero =>
      intro _
      simp
    | succ k ih =>
      rw [Function.iterate_succ_apply']
      intro hmov
      by_cases hk : (Ball.update^[k] b).moving = true
      · have h1 := update_speed_decay hk
        have h2 := ih hk
        have h3 : FRICTION * Real.sqrt ((Ball.update^[k] b).vx ^ 2 +
            (Ball.update^[k] b).vy ^ 2) ≤
            FRICTION * (FRICTION ^ k * Real.sqrt (b.vx ^ 2 + b.vy ^ 2)) := by
          apply mul_le_mul_of_nonneg_left h2
          unfold FRICTION
          norm_num
        calc Real.sqrt (((Ball.update^[k] b).update).vx ^ 2 +
              ((Ball.update^[k] b).update).vy ^ 2)
            ≤ FRICTION * Real.sqrt ((Ball.update^[k] b).vx ^ 2 +
                (Ball.update^[k] b).vy ^ 2) := h1
          _ ≤ FRICTION * (FRICTION ^ k * Real.sqrt (b.vx ^ 2 + b.vy ^ 2)) := h3
          _ = FRICTION ^ (k + 1) * Real.sqrt (b.vx ^ 2 + b.vy ^ 2) := by ring
      · have hk' : (Ball.update^[k] b).moving = false := by
          cases hmv : (Ball.update^[k] b).moving
          · rfl
          · exact absurd hmv hk
        rw [update_of_not_moving hk'] at hmov
        rw [hk'] at hmov
        exact absurd hmov (by simp)
  have hs0 : 0 ≤ Real.sqrt (b.vx ^ 2 + b.vy ^ 2) := Real.sqrt_nonneg _
  have hd : 0 < MIN_VELOCITY / (Real.sqrt (b.vx ^ 2 + b.vy ^ 2) + 1) := by
    apply div_pos
    · unfold MIN_VELOCITY
      norm_num
    · linarith
  obtain ⟨m, hm⟩ := exists_pow_lt_of_lt_one hd
    (show FRICTION < 1 by unfold FRICTION; norm_num)
  have hFpos : (0:ℝ) < FRICTION ^ m := by
    apply pow_pos
    unfold FRICTION
    norm_num
  have hms : FRICTION ^ m * Real.sqrt (b.vx ^ 2 + b.vy ^ 2) < MIN_VELOCITY := by
    have h1 : FRICTION ^ m * (Real.sqrt (b.vx ^ 2 + b.vy ^ 2) + 1) < MIN_VELOCITY :=
      (lt_div_iff₀ (by linarith)).mp hm
    nlinarith
  refine ⟨m + 1, ?_⟩
  by_cases hmv : (Ball.update^[m + 1] b).moving = true
  · exfalso
    have h1 := hbound (m + 1) hmv
    have h2 : FRICTION ^ (m + 1) * Real.sqrt (b.vx ^ 2 + b.vy ^ 2) ≤
        FRICTION ^ m * Real.sqrt (b.vx ^ 2 + b.vy ^ 2) := by
      have hF1 : FRICTION ≤ 1 := by unfold FRICTION; norm_num
      have h0 := pow_nonneg (show (0:ℝ) ≤ FRICTION by unfold FRICTION; norm_num) m
      rw [pow_succ]
      have h6 : 0 ≤ FRICTION ^ m * Real.sqrt (b.vx ^ 2 + b.vy ^ 2) :=
        mul_nonneg h0 hs0
      nlinarith
    have h4 : Ball.update^[m + 1] b = (Ball.update^[m] b).update :=
      Function.iterate_succ_apply' Ball.update m b
    have h5 := update_moving_speed (b := Ball.update^[m] b) (by rw [← h4]; exact hmv)
    rw [← h4] at h5
    linarith
  · have hmv' : (Ball.update^[m + 1] b).moving = false := by
      cases h : (Ball.update^[m + 1] b).moving
      · rfl
      · exact absurd h hmv
    have hv := hinv (m + 1) hmv'
    refine ⟨hmv', hv.1, hv.2, ?_⟩
    rw [hv.1, hv.2]
    norm_num
    unfold MIN_VELOCITY
    norm_num

/-- Witness for C7 at a concrete moving ball. -/
theorem C7_settling_terminates_witness :
    ∃ n : ℕ, (Ball.update^[n] ballC5).moving = false ∧
      (Ball.update^[n] ballC5).vx = 0 ∧ (Ball.update^[n] ballC5).vy = 0 ∧
      Real.sqrt ((Ball.update^[n] ballC5).vx ^ 2 + (Ball.update^[n] ballC5).vy ^ 2)
        < MIN_VELOCITY :=
  C7_settling_terminates ballC5 (fun h => absurd h (by simp [ballC5]))

/-! ## Claim C3 -/

/-- C3: no core operation hits a computational fault. With exactly
coincident centers `collide_with` skips both the positional correction
and the velocity response yet still reports a collision; a launch toward
the ball's own position leaves the ball unchanged; and the triangle-area
computation takes the square root only when `s > 0 ∧ s > a ∧ s > b ∧
s > c`, a condition under which the radicand is strictly positive, and
returns 0 otherwise (also when fewer than two player balls exist). -/
theorem C3_degenerate_safety :
    (∀ a b : Ball, a.x = b.x → a.y = b.y → a.collideWith b = (a, b, true)) ∧
    (∀ (b : Ball) (sp : ℝ), b.moveTowards b.x b.y sp = b) ∧
    (∀ (g : GameState) (p0 p1 : Ball) (rest : List Ball),
      g.playerBalls = p0 :: p1 :: rest →
      ∀ a b c s : ℝ,
      a = Real.sqrt ((p0.x - g.targetBall.x) ^ 2 + (p0.y - g.targetBall.y) ^ 2) →
      b = Real.sqrt ((p1.x - p0.x) ^ 2 + (p1.y - p0.y) ^ 2) →
      c = Real.sqrt ((g.targetBall.x - p1.x) ^ 2 + (g.targetBall.y - p1.y) ^ 2) →
      s = (a + b + c) / 2 →
      ((s > 0 ∧ s > a ∧ s > b ∧ s > c →
          0 < s * (s - a) * (s - b) * (s - c) ∧
          (calculateTriangleArea g).1 =
            Real.sqrt (s * (s - a) * (s - b) * (s - c))) ∧
       (¬(s > 0 ∧ s > a ∧ s > b ∧ s > c) → (calculateTriangleArea g).1 = 0))) ∧
    (∀ g : GameState, g.playerBalls.length < 2 → (calculateTriangleArea g).1 = 0) := by
  refine ⟨?_, ?_, ?_, ?_⟩
  · intro a b hx hy
    unfold Ball.collideWith Ball.collideWithR
    have hdx : b.x - a.x = 0 := by rw [hx, sub_self]
    have hdy : b.y - a.y = 0 := by rw [hy, sub_self]
    simp only [hdx, hdy]
    norm_num [Real.sqrt_zero, BALL_RADIUS]
  · intro b sp
    unfold Ball.moveTowards
    norm_num [sub_self, Real.sqrt_zero]
  · intro g p0 p1 rest hps a b c s ha hb hc hs
    subst ha hb hc hs
    unfold calculateTriangleArea
    rw [hps]
    dsimp only
    constructor
    · intro hg
      refine ⟨?_, ?_⟩
      · exact mul_pos (mul_pos (mul_pos hg.1 (sub_pos.mpr hg.2.1))
          (sub_pos.mpr hg.2.2.1)) (sub_pos.mpr hg.2.2.2)
      · rw [if_pos hg]
    · intro hg
      rw [if_neg hg]
  · intro g hlen
    rcases hl : g.playerBalls with _ | ⟨p0, tl⟩
    · unfold calculateTriangleArea
      rw [hl]
    · rcases tl with _ | ⟨p1, rest⟩
      · unfold calculateTriangleArea
        rw [hl]
      · rw [hl] at hlen
        simp only [List.length_cons] at hlen
        exact absurd hlen (by omega)

/-- Concrete balls for the C3 witness: two balls with coincident centers
and a degenerate collinear configuration. -/
def ballCoincident : Ball := Ball.init 50 60 TARGET_BALL_COLOR true

def ballCoincident2 : Ball := Ball.init 50 60 PLAYER_BALL_COLOR false

/-- Game state whose three scoring points are collinear, for the C3
witness. -/
def gameCollinear : GameState :=
  { targetBall := Ball.init 0 0 TARGET_BALL_COLOR true,
    playerBalls := [Ball.init 1 0 PLAYER_BALL_COLOR false,
                    Ball.init 2 0 PLAYER_BALL_COLOR false],
    ballsLeft := 0, placingBall := false, allBallsStopped := true,
    gameOver := false, currentScore := 0, triangle := none,
    tempBall := none, bestScore := 0 }

/-- Witness for C3: coincident-center collision, degenerate launch, and a
collinear triangle scoring 0, all at concrete inputs. -/
theorem C3_degenerate_safety_witness :
    ballCoincident.collideWith ballCoincident2 = (ballCoincident, ballCoincident2, true) ∧
    ballCoincident.moveTowards ballCoincident.x ballCoincident.y INITIAL_SPEED = ballCoincident ∧
    (calculateTriangleArea gameCollinear).1 = 0 := by
  refine ⟨C3_degenerate_safety.1 ballCoincident ballCoincident2 rfl rfl,
    C3_degenerate_safety.2.1 ballCoincident INITIAL_SPEED, ?_⟩
  have h := (C3_degenerate_safety.2.2.1 gameCollinear
    (Ball.init 1 0 PLAYER_BALL_COLOR false) (Ball.init 2 0 PLAYER_BALL_COLOR false)
    [] rfl _ _ _ _ rfl rfl rfl rfl).2
  apply h
  have h1 : Real.sqrt (((Ball.init 1 0 PLAYER_BALL_COLOR false).x -
      gameCollinear.targetBall.x) ^ 2 +
      ((Ball.init 1 0 PLAYER_BALL_COLOR false).y - gameCollinear.targetBall.y) ^ 2) = 1 := by
    apply sqrt_eval _ (by norm_num)
    show ((1:ℝ) - 0) ^ 2 + ((0:ℝ) - 0) ^ 2 = 1 ^ 2
    norm_num
  have h2 : Real.sqrt (((Ball.init 2 0 PLAYER_BALL_COLOR false).x -
      (Ball.init 1 0 PLAYER_BALL_COLOR false).x) ^ 2 +
      ((Ball.init 2 0 PLAYER_BALL_COLOR false).y -
      (Ball.init 1 0 PLAYER_BALL_COLOR false).y) ^ 2) = 1 := by
    apply sqrt_eval _ (by norm_num)
    show ((2:ℝ) - 1) ^ 2 + ((0:ℝ) - 0) ^ 2 = 1 ^ 2
    norm_num
  have h3 : Real.sqrt ((gameCollinear.targetBall.x -
      (Ball.init 2 0 PLAYER_BALL_COLOR false).x) ^ 2 +
      (gameCollinear.targetBall.y -
      (Ball.init 2 0 PLAYER_BALL_COLOR false).y) ^ 2) = 2 := by
    apply sqrt_eval _ (by norm_num)
    show ((0:ℝ) - 2) ^ 2 + ((0:ℝ) - 0) ^ 2 = 2 ^ 2
    norm_num
  rw [h1, h2, h3]
  intro hcon
  have := hcon.2.2.2
  norm_num at this

/-! ## Claim C2 -/

/-- Resting ball at the origin, for the C2 evaluation. -/
def ballA : Ball :=
  { x := 0, y := 0, vx := 0, vy := 0, color := PLAYER_BALL_COLOR,
    isTarget := false, moving := false }

/-- Ball at (20, 0) approaching `ballA` head-on with velocity (-1, 0), for
the C2 evaluation. The center distance 20 lies strictly between 0 and
2 x BALL_RADIUS = 30, so the velocity response runs with collision normal
(1, 0); the normal velocity components are the vx components. -/
def ballB : Ball :=
  { x := 20, y := 0, vx := -1, vy := 0, color := PLAYER_BALL_COLOR,
    isTarget := false, moving := true }

/-- C2 fails on the code: at this input the resolver (restitution 0.6 < 1)
conserves the vector sum of the two velocities but strictly INCREASES the
kinetic energy carried by the normal components, from 0^2 + (-1)^2 = 1 to
(-1.6)^2 + 0.6^2 = 2.92, because the impulse `(1 + restitution) * dot` is
applied in full to both balls (the equal-mass split by 2 is missing).
The claim demands a strict decrease for restitution < 1. -/
theorem C2_energy_gain_at_input :
    RESTITUTION < 1 ∧
    (ballA.collideWith ballB).2.2 = true ∧
    (ballA.collideWith ballB).1.vx = -1.6 ∧
    (ballA.collideWith ballB).2.1.vx = 0.6 ∧
    (ballA.collideWith ballB).1.vx + (ballA.collideWith ballB).2.1.vx =
      ballA.vx + ballB.vx ∧
    (ballA.collideWith ballB).1.vy + (ballA.collideWith ballB).2.1.vy =
      ballA.vy + ballB.vy ∧
    ballA.vx ^ 2 + ballB.vx ^ 2 <
      (ballA.collideWith ballB).1.vx ^ 2 + (ballA.collideWith ballB).2.1.vx ^ 2 ∧
    (Ball.collideWithR 1 ballA ballB).1.vx + (Ball.collideWithR 1 ballA ballB).2.1.vx =
      ballA.vx + ballB.vx ∧
    ballA.vx ^ 2 + ballB.vx ^ 2 <
      (Ball.collideWithR 1 ballA ballB).1.vx ^ 2 +
        (Ball.collideWithR 1 ballA ballB).2.1.vx ^ 2 := by
  have hd : Real.sqrt ((ballB.x - ballA.x) ^ 2 + (ballB.y - ballA.y) ^ 2) = 20 := by
    apply sqrt_eval _ (by norm_num)
    show ((20:ℝ) - 0) ^ 2 + ((0:ℝ) - 0) ^ 2 = 20 ^ 2
    norm_num
  unfold Ball.collideWith Ball.collideWithR
  simp only [hd]
  norm_num [ballA, ballB, BALL_RADIUS, RESTITUTION]

/-! ## Claim C8 -/

/-- Game state with target (0,0) and players at (3,0) and (0,4): a 3-4-5
right triangle of area 6, with no stored triangle. -/
def gameTriangleExample : GameState :=
  { targetBall := Ball.init 0 0 TARGET_BALL_COLOR true,
    playerBalls := [Ball.init 3 0 PLAYER_BALL_COLOR false,
                    Ball.init 0 4 PLAYER_BALL_COLOR false],
    ballsLeft := 0, placingBall := false, allBallsStopped := true,
    gameOver := false, currentScore := 0, triangle := none,
    tempBall := none, bestScore := 0 }

/-- C8 fails on the code: `calculate_triangle_area` is not free of side
effects. At this concrete state it returns the correct area 6 but also
writes the three vertices into `self.triangle` (source line 280), so the
state after the call differs from the state before it. -/
theorem C8_counterexample :
    (calculateTriangleArea gameTriangleExample).2.triangle =
      some [((0:ℝ), (0:ℝ)), ((3:ℝ), (0:ℝ)), ((0:ℝ), (4:ℝ))] ∧
    gameTriangleExample.triangle = none ∧
    (calculateTriangleArea gameTriangleExample).2 ≠ gameTriangleExample ∧
    (calculateTriangleArea gameTriangleExample).1 = 6 := by
  have h9 : Real.sqrt 9 = 3 := sqrt_eval (by norm_num) (by norm_num)
  have h25 : Real.sqrt 25 = 5 := sqrt_eval (by norm_num) (by norm_num)
  have h16 : Real.sqrt 16 = 4 := sqrt_eval (by norm_num) (by norm_num)
  have h36 : Real.sqrt 36 = 6 := sqrt_eval (by norm_num) (by norm_num)
  have hmain : (calculateTriangleArea gameTriangleExample).2.triangle =
      some [((0:ℝ), (0:ℝ)), ((3:ℝ), (0:ℝ)), ((0:ℝ), (4:ℝ))] ∧
      (calculateTriangleArea gameTriangleExample).1 = 6 := by
    unfold calculateTriangleArea
    norm_num [gameTriangleExample, Ball.init, h9, h25, h16, h36]
  refine ⟨hmain.1, rfl, ?_, hmain.2⟩
  intro hcon
  have h := congrArg GameState.triangle hcon
  rw [hmain.1] at h
  simp [gameTriangleExample] at h

/-- Reduction of `calculate_triangle_area` when at least two player balls
exist. -/
lemma calcArea_cons (g : GameState) (p0 p1 : Ball) (rest : List Ball)
    (hl : g.playerBalls = p0 :: p1 :: rest) :
    calculateTriangleArea g =
      (let a := Real.sqrt ((p0.x - g.targetBall.x) ^ 2 + (p0.y - g.targetBall.y) ^ 2)
       let b := Real.sqrt ((p1.x - p0.x) ^ 2 + (p1.y - p0.y) ^ 2)
       let c := Real.sqrt ((g.targetBall.x - p1.x) ^ 2 + (g.targetBall.y - p1.y) ^ 2)
       let s := (a + b + c) / 2
       if s > 0 ∧ s > a ∧ s > b ∧ s > c then
         (Real.sqrt (s * (s - a) * (s - b) * (s - c)),
          { g with triangle := some [(g.targetBall.x, g.targetBall.y),
                                     (p0.x, p0.y), (p1.x, p1.y)] })
       else (0, g)) := by
  unfold calculateTriangleArea
  rw [hl]

/-- C8 amended: the area computation is deterministic and its only side
effect is recording the three vertices in the `triangle` field when the
triangle guard holds; every other field of the game and every ball is
unchanged, and a second call on the resulting state returns the same area
and leaves the state fixed. -/
theorem C8_area_effects (g : GameState) :
    ((calculateTriangleArea g).2.targetBall = g.targetBall ∧
     (calculateTriangleArea g).2.playerBalls = g.playerBalls ∧
     (calculateTriangleArea g).2.ballsLeft = g.ballsLeft ∧
     (calculateTriangleArea g).2.placingBall = g.placingBall ∧
     (calculateTriangleArea g).2.allBallsStopped = g.allBallsStopped ∧
     (calculateTriangleArea g).2.gameOver = g.gameOver ∧
     (calculateTriangleArea g).2.currentScore = g.currentScore ∧
     (calculateTriangleArea g).2.tempBall = g.tempBall ∧
     (calculateTriangleArea g).2.bestScore = g.bestScore) ∧
    (calculateTriangleArea (calculateTriangleArea g).2).1 = (calculateTriangleArea g).1 ∧
    (calculateTriangleArea (calculateTriangleArea g).2).2 = (calculateTriangleArea g).2 := by
  rcases hl : g.playerBalls with _ | ⟨p0, tl⟩
  · have h : calculateTriangleArea g = (0, g) := by
      unfold calculateTriangleArea
      rw [hl]
    rw [h]
    simp [h, hl]
  · rcases tl with _ | ⟨p1, rest⟩
    · have h : calculateTriangleArea g = (0, g) := by
        unfold calculateTriangleArea
        rw [hl]
      rw [h]
      simp [h, hl]
    · rw [calcArea_cons g p0 p1 rest hl]
      dsimp only
      split_ifs with hguard
      · have hl2 : (GameState.mk g.targetBall g.playerBalls g.ballsLeft g.placingBall
            g.allBallsStopped g.gameOver g.currentScore
            (some [(g.targetBall.x, g.targetBall.y), (p0.x, p0.y), (p1.x, p1.y)])
            g.tempBall g.bestScore).playerBalls = p0 :: p1 :: rest := hl
        rw [calcArea_cons _ p0 p1 rest hl2]
        dsimp only
        rw [if_pos hguard]
        simp [hl]
      · rw [calcArea_cons g p0 p1 rest hl]
        dsimp only
        rw [if_neg hguard]
        simp [hl]

/-! ## Claim C4 -/

/-- C4: a place(x, y) command is accepted iff the round is accepting
placement (all balls stopped, balls left, game not over), the click is
within the board's vertical extent, and the distance to the target ball
and to every existing player ball is at least 2 x BALL_RADIUS. An
accepted placement appends exactly one fresh resting ball at (x, y) and
decrements the remaining-placements counter; a rejected placement
returns the state unchanged. -/
theorem C4_place_characterization (g : GameState) (mx my : ℝ) :
    ((place g mx my).2 = true ↔
      (allStopped g = true ∧ 0 < g.ballsLeft ∧ g.gameOver = false ∧
       my ≤ BOARD_HEIGHT ∧
       BALL_RADIUS * 2 ≤ Real.sqrt ((mx - g.targetBall.x) ^ 2 + (my - g.targetBall.y) ^ 2) ∧
       ∀ b ∈ g.playerBalls,
         BALL_RADIUS * 2 ≤ Real.sqrt ((mx - b.x) ^ 2 + (my - b.y) ^ 2))) ∧
    ((place g mx my).2 = true →
      (place g mx my).1.playerBalls =
        g.playerBalls ++ [Ball.init mx my PLAYER_BALL_COLOR false] ∧
      (place g mx my).1.ballsLeft = g.ballsLeft - 1 ∧
      (place g mx my).1.targetBall = g.targetBall ∧
      (place g mx my).1.bestScore = g.bestScore ∧
      (Ball.init mx my PLAYER_BALL_COLOR false).moving = false ∧
      (Ball.init mx my PLAYER_BALL_COLOR false).vx = 0 ∧
      (Ball.init mx my PLAYER_BALL_COLOR false).vy = 0 ∧
      (Ball.init mx my PLAYER_BALL_COLOR false).x = mx ∧
      (Ball.init mx my PLAYER_BALL_COLOR false).y = my) ∧
    ((place g mx my).2 = false → (place g mx my).1 = g) := by
  unfold place
  split_ifs with h1 h2 h3
  · refine ⟨?_, ?_, ?_⟩
    · constructor
      · intro _
        refine ⟨h1.1, h1.2.1, h1.2.2, h2, not_lt.mp h3.1, ?_⟩
        intro b hb
        exact not_lt.mp (h3.2 b hb)
      · intro _
        rfl
    · intro _
      exact ⟨rfl, rfl, rfl, rfl, rfl, rfl, rfl, rfl, rfl⟩
    · intro hfalse
      exact absurd hfalse (by simp)
  · refine ⟨?_, ?_, fun _ => rfl⟩
    · constructor
      · intro hfalse
        exact absurd hfalse (by simp)
      · intro hcond
        exfalso
        apply h3
        constructor
        · exact not_lt.mpr hcond.2.2.2.2.1
        · intro b hb
          exact not_lt.mpr (hcond.2.2.2.2.2 b hb)
    · intro hfalse
      exact absurd hfalse (by simp)
  · refine ⟨?_, ?_, fun _ => rfl⟩
    · constructor
      · intro hfalse
        exact absurd hfalse (by simp)
      · intro hcond
        exact absurd hcond.2.2.2.1 h2
    · intro hfalse
      exact absurd hfalse (by simp)
  · refine ⟨?_, ?_, fun _ => rfl⟩
    · constructor
      · intro hfalse
        exact absurd hfalse (by simp)
      · intro hcond
        exact absurd ⟨hcond.1, hcond.2.1, hcond.2.2.1⟩ h1
    · intro hfalse
      exact absurd hfalse (by simp)

/-- Fresh round state with the target at (400, 300), for witnesses. -/
def gamePlacing : GameState :=
  { targetBall := Ball.init 400 300 TARGET_BALL_COLOR true,
    playerBalls := [], ballsLeft := 2, placingBall := false,
    allBallsStopped := true, gameOver := false, currentScore := 0,
    triangle := none, tempBall := none, bestScore := 0 }

/-- Witness for C4: a concrete placement at (100, 300), at distance 300
from the target, is accepted, appends the ball and decrements the
counter. -/
theorem C4_place_characterization_witness :
    (place gamePlacing 100 300).2 = true ∧
    (place gamePlacing 100 300).1.playerBalls =
      [Ball.init 100 300 PLAYER_BALL_COLOR false] ∧
    (place gamePlacing 100 300).1.ballsLeft = 1 := by
  have h := C4_place_characterization gamePlacing 100 300
  have hdist : Real.sqrt ((100 - gamePlacing.targetBall.x) ^ 2 +
      (300 - gamePlacing.targetBall.y) ^ 2) = 300 := by
    apply sqrt_eval _ (by norm_num)
    show ((100:ℝ) - 400) ^ 2 + ((300:ℝ) - 300) ^ 2 = 300 ^ 2
    norm_num
  have hacc : (place gamePlacing 100 300).2 = true := by
    apply h.1.mpr
    refine ⟨rfl, by decide, rfl, ?_, ?_, ?_⟩
    · show (300:ℝ) ≤ BOARD_HEIGHT
      unfold BOARD_HEIGHT
      norm_num
    · rw [hdist]
      unfold BALL_RADIUS
      norm_num
    · intro b hb
      exact absurd hb (List.not_mem_nil b)
  have heff := h.2.1 hacc
  refine ⟨hacc, ?_, ?_⟩
  · rw [heff.1]
    rfl
  · rw [heff.2.1]
    rfl

/-! ## Claim C6 -/

/-- `update_balls` only mutates the target ball and the player balls. -/
lemma updateBalls_fields (g : GameState) :
    (updateBalls g).ballsLeft = g.ballsLeft ∧
    (updateBalls g).bestScore = g.bestScore ∧
    (updateBalls g).gameOver = g.gameOver ∧
    (updateBalls g).currentScore = g.currentScore := by
  unfold updateBalls
  exact ⟨rfl, rfl, rfl, rfl⟩

/-- `calculate_triangle_area` leaves the score counters untouched. -/
lemma calcArea_frame (g : GameState) :
    (calculateTriangleArea g).2.bestScore = g.bestScore ∧
    (calculateTriangleArea g).2.ballsLeft = g.ballsLeft ∧
    (calculateTriangleArea g).2.currentScore = g.currentScore := by
  rcases hl : g.playerBalls with _ | ⟨p0, tl⟩
  · have h : calculateTriangleArea g = (0, g) := by
      unfold calculateTriangleArea
      rw [hl]
    rw [h]
    exact ⟨rfl, rfl, rfl⟩
  · rcases tl with _ | ⟨p1, rest⟩
    · have h : calculateTriangleArea g = (0, g) := by
        unfold calculateTriangleArea
        rw [hl]
      rw [h]
      exact ⟨rfl, rfl, rfl⟩
    · rw [calcArea_cons g p0 p1 rest hl]
      dsimp only
      split_ifs <;> exact ⟨rfl, rfl, rfl⟩

lemma place_bestScore (g : GameState) (mx my : ℝ) :
    (place g mx my).1.bestScore = g.bestScore := by
  unfold place
  split_ifs <;> rfl

lemma commitLaunch_bestScore (g : GameState) :
    (commitLaunch g).bestScore = g.bestScore := by
  unfold commitLaunch
  split_ifs with h
  · dsimp only
    cases hgl : ({ g with placingBall := false } : GameState).playerBalls.getLast? with
    | none => rfl
    | some last => rfl
  · rfl

/-- On the tick that finalizes the round, the game ends and the best score
becomes the maximum of the previous best score and the new score. -/
lemma tick_finalize (g : GameState) (h1 : g.allBallsStopped = false)
    (h2 : allStopped (updateBalls g) = true) (h3 : (updateBalls g).ballsLeft = 0) :
    (tick g).gameOver = true ∧
    (tick g).bestScore = max g.bestScore (tick g).currentScore := by
  have hb : (calculateTriangleArea
      { updateBalls g with allBallsStopped := true }).2.bestScore = g.bestScore := by
    rw [(calcArea_frame _).1]
    exact (updateBalls_fields g).2.1
  unfold tick
  rw [if_neg (by simp [h1])]
  dsimp only
  rw [h2, if_pos rfl]
  rw [if_pos h3]
  dsimp only
  constructor
  · rfl
  · split_ifs with h4
    · dsimp only at h4 ⊢
      rw [hb] at h4
      exact (max_eq_right (le_of_lt h4)).symm
    · dsimp only at h4 ⊢
      rw [hb] at h4
      rw [hb]
      exact (max_eq_left (not_lt.mp h4)).symm

lemma tick_bestScore (g : GameState) : g.bestScore ≤ (tick g).bestScore := by
  unfold tick
  by_cases h1 : g.allBallsStopped = true
  · rw [if_pos h1]
  · rw [if_neg h1]
    dsimp only
    by_cases h2 : allStopped (updateBalls g) = true
    · rw [h2, if_pos rfl]
      by_cases h3 : (updateBalls g).ballsLeft = 0
      · rw [if_pos h3]
        have hb : (calculateTriangleArea
            { updateBalls g with allBallsStopped := true }).2.bestScore = g.bestScore := by
          rw [(calcArea_frame _).1]
          exact (updateBalls_fields g).2.1
        dsimp only
        split_ifs with h4
        · dsimp only at h4 ⊢
          rw [hb] at h4
          exact le_of_lt h4
        · dsimp only
          rw [hb]
      · rw [if_neg h3]
        dsimp only
        exact le_of_eq (updateBalls_fields g).2.1.symm
    · rw [if_neg h2]
      dsimp only
      exact le_of_eq (updateBalls_fields g).2.1.symm

lemma applyOp_bestScore (g : GameState) (op : GameOp) :
    g.bestScore ≤ (applyOp g op).bestScore := by
  cases op with
  | tick => exact tick_bestScore g
  | place mx my => exact le_of_eq (place_bestScore g mx my).symm
  | launch => exact le_of_eq (commitLaunch_bestScore g).symm
  | reset tx ty => exact le_refl _

/-- C6: the best score is monotonically non-decreasing over the whole
process lifetime: every command (tick, place, launch, reset) leaves it
equal or larger, on the transition into the finished state it is updated
to max(best, current), and `reset_game` re-initializes the target, the
player-ball list, the remaining-placements counter and the current score
while never changing the best score; hence it never decreases along any
command sequence. -/
theorem C6_best_score_monotone :
    (∀ (g : GameState) (op : GameOp), g.bestScore ≤ (applyOp g op).bestScore) ∧
    (∀ (g : GameState) (ops : List GameOp),
      g.bestScore ≤ (ops.foldl applyOp g).bestScore) ∧
    (∀ g : GameState, g.allBallsStopped = false → allStopped (updateBalls g) = true →
      (updateBalls g).ballsLeft = 0 →
      (tick g).gameOver = true ∧
      (tick g).bestScore = max g.bestScore (tick g).currentScore) ∧
    (∀ (g : GameState) (tx ty : ℤ),
      (resetGame g tx ty).bestScore = g.bestScore ∧
      (resetGame g tx ty).playerBalls = [] ∧
      (resetGame g tx ty).ballsLeft = 2 ∧
      (resetGame g tx ty).currentScore = 0 ∧
      (resetGame g tx ty).targetBall = Ball.init (tx : ℝ) (ty : ℝ) TARGET_BALL_COLOR true) := by
  refine ⟨applyOp_bestScore, ?_, tick_finalize, fun g tx ty => ⟨rfl, rfl, rfl, rfl, rfl⟩⟩
  intro g ops
  induction ops generalizing g with
  | nil => exact le_refl _
  | cons op rest ih =>
    exact le_trans (applyOp_bestScore g op) (ih (applyOp g op))

/-- Settling state with no player balls and no placements left, for the C6
witness: the next tick finalizes the round. -/
def gameSettling : GameState :=
  { targetBall := Ball.init 400 300 TARGET_BALL_COLOR true,
    playerBalls := [], ballsLeft := 0, placingBall := false,
    allBallsStopped := false, gameOver := false, currentScore := 0,
    triangle := none, tempBall := none, bestScore := 0 }

/-- Witness for C6 at a concrete state whose next tick finalizes the
round. -/
theorem C6_best_score_monotone_witness :
    gameSettling.allBallsStopped = false ∧
    allStopped (updateBalls gameSettling) = true ∧
    (updateBalls gameSettling).ballsLeft = 0 ∧
    (tick gameSettling).gameOver = true ∧
    (tick gameSettling).bestScore =
      max gameSettling.bestScore (tick gameSettling).currentScore := by
  have h2 : allStopped (updateBalls gameSettling) = true := rfl
  have h3 : (updateBalls gameSettling).ballsLeft = 0 := rfl
  have h := C6_best_score_monotone.2.2.1 gameSettling rfl h2 h3
  exact ⟨rfl, h2, h3, h.1, h.2⟩

/-! ## Claim C9 -/

/-- C9 fails on the code: the claimed radius-sized margin admits the point
(15, 300), which lies inside the claimed range
[BALL_RADIUS, SCREEN_WIDTH - BALL_RADIUS] x [BALL_RADIUS, BOARD_HEIGHT -
BALL_RADIUS], but `reset_game` draws from `random.randint(BALL_RADIUS * 2,
... - BALL_RADIUS * 2)`, a margin of 2 x BALL_RADIUS = 30, so x = 15 is
never a possible spawn position. -/
theorem C9_counterexample :
    (BALL_RADIUS ≤ (15:ℝ) ∧ (15:ℝ) ≤ SCREEN_WIDTH - BALL_RADIUS ∧
     BALL_RADIUS ≤ (300:ℝ) ∧ (300:ℝ) ≤ BOARD_HEIGHT - BALL_RADIUS) ∧
    ¬ possibleSpawn 15 300 := by
  constructor
  · unfold BALL_RADIUS SCREEN_WIDTH BOARD_HEIGHT
    norm_num
  · rintro ⟨g, tx, ty, ⟨hx1, _, _, _⟩, hx, _⟩
    have hxx : (resetGame g tx ty).targetBall.x = (tx : ℝ) := rfl
    rw [hxx] at hx
    rw [hx] at hx1
    unfold BALL_RADIUS at hx1
    norm_num at hx1

/-- C9 amended: for every outcome of the random draw the target spawns at
the drawn integer point, which satisfies the 2 x BALL_RADIUS margin from
all four walls, and conversely every integer point within that margin is
a possible spawn position. -/
theorem C9_spawn_range :
    (∀ (g : GameState) (tx ty : ℤ), validDraw tx ty →
      (resetGame g tx ty).targetBall.x = (tx : ℝ) ∧
      (resetGame g tx ty).targetBall.y = (ty : ℝ) ∧
      BALL_RADIUS * 2 ≤ (resetGame g tx ty).targetBall.x ∧
      (resetGame g tx ty).targetBall.x ≤ SCREEN_WIDTH - BALL_RADIUS * 2 ∧
      BALL_RADIUS * 2 ≤ (resetGame g tx ty).targetBall.y ∧
      (resetGame g tx ty).targetBall.y ≤ BOARD_HEIGHT - BALL_RADIUS * 2) ∧
    (∀ x y : ℤ, BALL_RADIUS * 2 ≤ (x:ℝ) → (x:ℝ) ≤ SCREEN_WIDTH - BALL_RADIUS * 2 →
      BALL_RADIUS * 2 ≤ (y:ℝ) → (y:ℝ) ≤ BOARD_HEIGHT - BALL_RADIUS * 2 →
      possibleSpawn (x:ℝ) (y:ℝ)) := by
  constructor
  · intro g tx ty hd
    exact ⟨rfl, rfl, hd.1, hd.2.1, hd.2.2.1, hd.2.2.2⟩
  · intro x y h1 h2 h3 h4
    exact ⟨gamePlacing, x, y, ⟨h1, h2, h3, h4⟩, rfl, rfl⟩

/-- Witness for C9 at the concrete draw (30, 30) and the concrete point
(100, 200). -/
theorem C9_spawn_range_witness :
    (resetGame gamePlacing 30 30).targetBall.x = ((30:ℤ) : ℝ) ∧
    BALL_RADIUS * 2 ≤ (resetGame gamePlacing 30 30).targetBall.x ∧
    possibleSpawn ((100:ℤ) : ℝ) ((200:ℤ) : ℝ) := by
  have hd : validDraw 30 30 := by
    unfold validDraw BALL_RADIUS SCREEN_WIDTH BOARD_HEIGHT
    norm_num
  have h := C9_spawn_range.1 gamePlacing 30 30 hd
  refine ⟨h.1, h.2.2.1, ?_⟩
  apply C9_spawn_range.2 100 200
  · unfold BALL_RADIUS
    norm_num
  · unfold BALL_RADIUS SCREEN_WIDTH
    norm_num
  · unfold BALL_RADIUS
    norm_num
  · unfold BALL_RADIUS BOARD_HEIGHT
    norm_num

/-! ## Claim C1 -/

/-- Membership in the per-tick trace of `collide_with` invocations: the
ordered pair (p, q) is called exactly when p is a player index and q is
the target index n or another player index. -/
lemma mem_collideCallTrace {n p q : ℕ} :
    (p, q) ∈ collideCallTrace n ↔ (p < n ∧ (q = n ∨ (q < n ∧ q ≠ p))) := by
  unfold collideCallTrace playerCollideCalls
  constructor
  · intro h
    simp only [List.mem_flatMap, List.mem_range] at h
    obtain ⟨i, hi, hmem⟩ := h
    rcases List.mem_cons.mp hmem with heq | hmem2
    · injection heq with hp hq
      subst hp
      subst hq
      exact ⟨hi, Or.inl rfl⟩
    · simp only [List.mem_map, List.mem_filter, List.mem_range] at hmem2
      obtain ⟨j, ⟨hj, hji⟩, heq⟩ := hmem2
      injection heq with hp hq
      subst hp
      subst hq
      refine ⟨hi, Or.inr ⟨hj, ?_⟩⟩
      simpa using hji
  · rintro ⟨hp, rfl | ⟨hq, hqp⟩⟩
    · simp only [List.mem_flatMap, List.mem_range]
      exact ⟨p, hp, List.mem_cons_self _ _⟩
    · simp only [List.mem_flatMap, List.mem_range]
      refine ⟨p, hp, List.mem_cons_of_mem _ ?_⟩
      simp only [List.mem_map, List.mem_filter, List.mem_range]
      exact ⟨q, ⟨hq, by simpa using hqp⟩, rfl⟩

/-- The per-tick invocation trace has no duplicate ordered pair. -/
lemma nodup_collideCallTrace (n : ℕ) : (collideCallTrace n).Nodup := by
  unfold collideCallTrace
  rw [List.nodup_flatMap]
  constructor
  · intro i hi
    rw [List.nodup_cons]
    constructor
    · intro hmem
      unfold playerCollideCalls at hmem
      simp only [List.mem_map, List.mem_filter, List.mem_range] at hmem
      obtain ⟨j, ⟨hj, _⟩, heq⟩ := hmem
      injection heq with hp hq
      omega
    · unfold playerCollideCalls
      apply List.Nodup.map
      · intro a b hab
        injection hab
      · exact List.Nodup.filter _ (List.nodup_range n)
  · have hfst : ∀ (i : ℕ) (x : ℕ × ℕ),
        x ∈ (i, n) :: playerCollideCalls n i → x.1 = i := by
      intro i x hx
      rcases List.mem_cons.mp hx with h | h
      · rw [h]
      · unfold playerCollideCalls at h
        simp only [List.mem_map] at h
        obtain ⟨j, _, heq⟩ := h
        rw [← heq]
    apply List.Pairwise.imp ?_ (List.pairwise_lt_range n)
    intro a b hab x hxa hxb
    have h1 := hfst a x hxa
    have h2 := hfst b x hxb
    omega

/-- Count of an element of a duplicate-free list of index pairs. -/
lemma count_one_of_nodup_mem {x : ℕ × ℕ} {l : List (ℕ × ℕ)}
    (hn : l.Nodup) (hm : x ∈ l) : l.count x = 1 := by
  induction l with
  | nil => cases hm
  | cons a t ih =>
    rw [List.count_cons]
    rcases List.mem_cons.mp hm with rfl | hmem
    · have hna : x ∉ t := (List.nodup_cons.mp hn).1
      rw [List.count_eq_zero_of_not_mem hna]
      simp
    · rw [ih (List.nodup_cons.mp hn).2 hmem]
      have hne : a ≠ x := by
        rintro rfl
        exact (List.nodup_cons.mp hn).1 hmem
      simp [hne]

/-- C1 fails on the code: with two player balls, one `update_balls` call
applies `collide_with` to the unordered player pair {0, 1} twice (once as
(0, 1) in ball 0's inner loop and once as (1, 0) in ball 1's inner loop),
not exactly once as the claim demands. -/
theorem C1_counterexample :
    pairCallCount 2 0 1 = 2 ∧ pairCallCount 2 0 1 ≠ 1 := by decide

/-- C1 amended: each tick, `update_balls` applies the resolver to the pair
(player i, target) exactly once per player ball, never in the reversed
order, and to every distinct unordered pair of player balls exactly twice
- once in each order. -/
theorem C1_pair_call_counts (n i j : ℕ) (hi : i < n) (hj : j < n) (hij : i ≠ j) :
    (collideCallTrace n).count (i, j) = 1 ∧
    (collideCallTrace n).count (j, i) = 1 ∧
    pairCallCount n i j = 2 ∧
    (collideCallTrace n).count (i, n) = 1 ∧
    (collideCallTrace n).count (n, i) = 0 ∧
    pairCallCount n i n = 1 := by
  have h1 : (i, j) ∈ collideCallTrace n :=
    mem_collideCallTrace.mpr ⟨hi, Or.inr ⟨hj, Ne.symm hij⟩⟩
  have h2 : (j, i) ∈ collideCallTrace n :=
    mem_collideCallTrace.mpr ⟨hj, Or.inr ⟨hi, hij⟩⟩
  have h3 : (i, n) ∈ collideCallTrace n :=
    mem_collideCallTrace.mpr ⟨hi, Or.inl rfl⟩
  have h4 : (n, i) ∉ collideCallTrace n := by
    intro hmem
    exact absurd (mem_collideCallTrace.mp hmem).1 (lt_irrefl n)
  have c1 := count_one_of_nodup_mem (nodup_collideCallTrace n) h1
  have c2 := count_one_of_nodup_mem (nodup_collideCallTrace n) h2
  have c3 := count_one_of_nodup_mem (nodup_collideCallTrace n) h3
  have c4 : (collideCallTrace n).count (n, i) = 0 :=
    List.count_eq_zero_of_not_mem h4
  refine ⟨c1, c2, ?_, c3, c4, ?_⟩
  · unfold pairCallCount
    rw [c1, c2]
  · unfold pairCallCount
    rw [c3, c4]

/-- Witness for C1 amended at the game's real configuration of two player
balls: indices 0 and 1 with the target numbered 2. -/
theorem C1_pair_call_counts_witness :
    (collideCallTrace 2).count (0, 1) = 1 ∧
    (collideCallTrace 2).count (1, 0) = 1 ∧
    pairCallCount 2 0 1 = 2 ∧
    (collideCallTrace 2).count (0, 2) = 1 ∧
    (collideCallTrace 2).count (2, 0) = 0 ∧
    pairCallCount 2 0 2 = 1 :=
  C1_pair_call_counts 2 0 1 (by decide) (by decide) (by decide)
